import Mathlib

/-!
Shallow embedding of the g2g-assessment user-management core:
the client-side filter/sort pipeline (`useFilteredUsers`), the
collection-store wrapper (`withLoadingAndError` and the CRUD operations
built on it), and the CSV exporter (`formatDate`, `escapeCsvValue`,
`usersToCSV`).

Modelling conventions:
* A JavaScript `Date` is its millisecond timestamp since the Unix epoch,
  `Option Int`; `none` is an Invalid Date (`getTime()` is `NaN`).
* The runtime's local timezone enters only through `Date.prototype.toDateString`,
  which renders the *local* calendar day.  It is passed explicitly as
  `tz : Int`, the offset in milliseconds such that local time = UTC + `tz`
  (UTC runtime: `tz = 0`; UTC+8: `tz = 28800000`).
* `localeCompare` is modelled as code-point (lexicographic) string
  comparison returning -1/0/1; the values compared in this program are
  plain ASCII strings, for which the default collation is order-isomorphic.
* `Array.prototype.sort` with comparator `cmp` is modelled as a stable
  merge sort by the boolean relation `cmp a b ≤ 0`; per the ECMAScript
  specification a `NaN` comparator result is coerced to `+0`.
-/

namespace G2G

/-- A JS `Date` value: `some` millisecond timestamp, or `none` for an
Invalid Date. -/
abbrev JSDate := Option Int

inductive Gender where
  | male
  | female
deriving DecidableEq, Repr

/-- The string the `gender` enum value holds at runtime. -/
def genderStr : Gender → String
  | .male => "male"
  | .female => "female"

/-- The `User` record of `src/models/user.ts` (`z.infer<typeof userSchema> & { id?: string }`):
`id` and `profilePicture` are optional strings, the three date fields are JS `Date`s. -/
structure User where
  id : Option String
  name : String
  email : String
  dateOfBirth : JSDate
  gender : Gender
  profilePicture : Option String
  createdAt : JSDate
  updatedAt : JSDate
deriving DecidableEq, Repr

/-- `a.localeCompare(b)` on the ASCII data of this program: -1 / 0 / 1 by
lexicographic string order. -/
def strCmp (a b : String) : Int :=
  if a < b then -1 else if b < a then 1 else 0

/-- The string a sort comparand contributes after `aVal || ''`:
`undefined` and `''` both collapse to `''`. -/
def picStr (u : User) : String :=
  match u.profilePicture with
  | none => ""
  | some s => s

inductive SortOrder where
  | asc
  | desc
deriving DecidableEq, Repr

/-- `keyof User`, the sort key selected by the UI. -/
inductive SortKey where
  | id
  | name
  | email
  | dateOfBirth
  | gender
  | profilePicture
  | createdAt
  | updatedAt
deriving DecidableEq, Repr

/-- The `aVal instanceof Date` branch of the comparator:
`aVal.getTime() - bVal.getTime()` under the chosen direction.  When either
date is invalid the subtraction is `NaN`, which `Array.prototype.sort`
coerces to `+0`. -/
def dateCmp (o : SortOrder) (a b : JSDate) : Int :=
  match a, b with
  | some x, some y => match o with
    | .asc => x - y
    | .desc => y - x
  | _, _ => 0

/-- The `sortBy === 'profilePicture'` branch of the comparator in
`useFilteredUsers`: after `|| ''`, empty-vs-empty ties, an empty value
sorts after (asc) / before (desc) a present one, and two present values
are locale-compared under the direction. -/
def ppCmp (o : SortOrder) (aStr bStr : String) : Int :=
  if aStr = "" ∧ bStr = "" then 0
  else if aStr = "" then (match o with | .asc => 1 | .desc => -1)
  else if bStr = "" then (match o with | .asc => -1 | .desc => 1)
  else match o with
    | .asc => strCmp aStr bStr
    | .desc => strCmp bStr aStr

/-- The comparator of `useFilteredUsers`' sort, per sort key.  The
`instanceof Date` branch handles the three date keys; `gender` and
`profilePicture` have dedicated branches; `name`/`email` hit the
string-typed branch; `id` hits it only when both ids are present
(otherwise `typeof aVal === 'string'` fails and the comparator returns 0). -/
def userCompare (k : SortKey) (o : SortOrder) (a b : User) : Int :=
  match k with
  | .dateOfBirth => dateCmp o a.dateOfBirth b.dateOfBirth
  | .createdAt => dateCmp o a.createdAt b.createdAt
  | .updatedAt => dateCmp o a.updatedAt b.updatedAt
  | .gender => match o with
    | .asc => strCmp (genderStr a.gender) (genderStr b.gender)
    | .desc => strCmp (genderStr b.gender) (genderStr a.gender)
  | .profilePicture => ppCmp o (picStr a) (picStr b)
  | .name => match o with
    | .asc => strCmp a.name b.name
    | .desc => strCmp b.name a.name
  | .email => match o with
    | .asc => strCmp a.email b.email
    | .desc => strCmp b.email a.email
  | .id => match a.id, b.id with
    | some x, some y => match o with
      | .asc => strCmp x y
      | .desc => strCmp y x
    | _, _ => 0

/-- The boolean "not after" relation a JS comparator induces on the
sorted output. -/
def jsSortLe (cmp : User → User → Int) : User → User → Bool :=
  fun a b => decide (cmp a b ≤ 0)

/-- JS whitespace recognised by `String.prototype.trim`. -/
def isJsWhitespace (c : Char) : Bool :=
  c = ' ' ∨ c = '\t' ∨ c = '\n' ∨ c = '\r' ∨ c = '\x0b' ∨ c = '\x0c' ∨ c = ' '

/-- `String.prototype.trim`. -/
def jsTrim (s : String) : String :=
  String.mk (((s.data.dropWhile isJsWhitespace).reverse.dropWhile isJsWhitespace).reverse)

/-- `user.profilePicture && user.profilePicture.trim() !== ''` of the
profile-picture presence filter: falsy when the field is absent or the
empty string, otherwise true exactly when the trimmed value is nonempty. -/
def hasProfilePicture (u : User) : Bool :=
  match u.profilePicture with
  | none => false
  | some s => if s = "" then false else decide (jsTrim s ≠ "")

/-- `Date.prototype.toDateString` compared for equality: an Invalid Date
renders "Invalid Date"; a valid one renders its *local* calendar day,
captured here as the floored local day number (two valid dates have equal
`toDateString` exactly when their local civil dates coincide). -/
def localDayKey (tz : Int) : JSDate → Option Int
  | none => none
  | some t => some ((t + tz).fdiv 86400000)

/-- `userDate.toDateString() === filterDate.toDateString()`. -/
def sameLocalDay (tz : Int) (a b : JSDate) : Bool :=
  localDayKey tz a == localDayKey tz b

inductive PicFilter where
  | withPic
  | withoutPic
  | all
deriving DecidableEq, Repr

/-- The filter criteria of `useFilteredUsers`.  A date filter is the
result of `new Date(filterString)` when the string is truthy (`none` when
the filter input is the empty string); `some none` is a truthy but
unparseable input. -/
structure FilterCriteria where
  genderFilter : Option Gender
  profilePictureFilter : PicFilter
  dateOfBirthFilter : Option JSDate
  createdAtFilter : Option JSDate
  updatedAtFilter : Option JSDate

/-- The five filter stages of the pipeline, in source order. -/
inductive StageId where
  | gender
  | pic
  | dob
  | created
  | updated
deriving DecidableEq, Repr

/-- One stage of the filtering pipeline, exactly as the source guards it:
a stage whose criterion is at its "no filter" value leaves the list
untouched, otherwise it filters. -/
def applyStage (tz : Int) (fc : FilterCriteria) : StageId → List User → List User
  | .gender, l => match fc.genderFilter with
    | none => l
    | some g => l.filter (fun u => u.gender == g)
  | .pic, l => match fc.profilePictureFilter with
    | .all => l
    | pf => l.filter (fun u =>
        if pf = .withPic then hasProfilePicture u else !hasProfilePicture u)
  | .dob, l => match fc.dateOfBirthFilter with
    | none => l
    | some fd => l.filter (fun u => sameLocalDay tz u.dateOfBirth fd)
  | .created, l => match fc.createdAtFilter with
    | none => l
    | some fd => l.filter (fun u => sameLocalDay tz u.createdAt fd)
  | .updated, l => match fc.updatedAtFilter with
    | none => l
    | some fd => l.filter (fun u => sameLocalDay tz u.updatedAt fd)

/-- The source order of the five stages. -/
def canonicalStages : List StageId :=
  [.gender, .pic, .dob, .created, .updated]

/-- Run a sequence of filter stages left to right. -/
def runStages (tz : Int) (fc : FilterCriteria) (order : List StageId)
    (l : List User) : List User :=
  order.foldl (fun acc st => applyStage tz fc st acc) l

/-- The derived view of `useFilteredUsers`: the five filters in source
order, then the sort (`[...result].sort(comparator)`). -/
def useFilteredUsers (tz : Int) (fc : FilterCriteria) (k : SortKey)
    (o : SortOrder) (users : List User) : List User :=
  (runStages tz fc canonicalStages users).mergeSort (jsSortLe (userCompare k o))

/-! ## Collection store (`useUsers`) -/

/-- The module-level reactive state of `useUsers`: the in-memory list,
the busy flag, and the last error message. -/
structure StoreState where
  users : List User
  loading : Bool
  error : Option String
deriving DecidableEq, Repr

/-- The state right after `withLoadingAndError` enters its `try` block:
`loading.value = true`, `error.value = null`. -/
def wrapStart (s : StoreState) : StoreState :=
  { s with loading := true, error := none }

/-- `withLoadingAndError`: run the wrapped operation (which may read and
replace the users list and either return a value or throw a message),
capturing any failure as the error state and returning `null`, and clear
the busy flag in `finally`.  Every thrown value in this code base is an
`Error`, so the captured message is the thrown message. -/
def withLoadingAndError {α : Type} (op : List User → Except String (α × List User))
    (s : StoreState) : StoreState × Option α :=
  let s1 := wrapStart s
  match op s1.users with
  | .ok (r, us) => ({ s1 with users := us, loading := false }, some r)
  | .error e => ({ s1 with loading := false, error := some e }, none)

/-- `fetchUsers`: replace the list with the remote result, returning
`result !== null`.  The remote call's outcome is the `remote` argument. -/
def fetchUsers (remote : Except String (List User)) (s : StoreState) :
    StoreState × Bool :=
  let r := withLoadingAndError (fun _ => remote.map (fun us => (us, us))) s
  (r.1, r.2.isSome)

/-- `createUser`: `users.value.unshift(newUser)` on success. -/
def createUser (remote : Except String User) (s : StoreState) :
    StoreState × Option User :=
  withLoadingAndError (fun us => remote.map (fun nu => (nu, nu :: us))) s

/-- The local replacement step of `updateUser`:
`findIndex(user => user.id === updatedUser.id)`, and `users.value[index] = updatedUser`
only when the index is not `-1`. -/
def updateLocal (us : List User) (uu : User) : List User :=
  match us.findIdx? (fun u => u.id == uu.id) with
  | none => us
  | some i => us.set i uu

/-- `updateUser`: send the partial update (its outcome is `remote`), then
replace the matching in-memory record in place. -/
def updateUser (remote : Except String User) (s : StoreState) :
    StoreState × Option User :=
  withLoadingAndError (fun us => remote.map (fun uu => (uu, updateLocal us uu))) s

/-- The local removal step of `deleteUser`:
`users.value.filter(user => user.id !== id)`. -/
def removeById (us : List User) (i : String) : List User :=
  us.filter (fun u => !(u.id == some i))

/-- `deleteUser`: remote delete, then local no-op filter; returns
`result !== null`. -/
def deleteUser (remote : Except String Unit) (i : String) (s : StoreState) :
    StoreState × Bool :=
  let r := withLoadingAndError (fun us => remote.map (fun _ => (true, removeById us i))) s
  (r.1, r.2.isSome)

/-- The remote branch of `getUserById`: the wrapped call returns
`User | null` (`null` when the id is simply missing). -/
def getUserByIdRemote (remote : Except String (Option User)) (s : StoreState) :
    StoreState × Option (Option User) :=
  withLoadingAndError (fun us => remote.map (fun mu => (mu, us))) s

/-- `getUserById`: in-memory hit bypasses the wrapper; otherwise the
remote branch runs through it and `User | null` collapses with the
wrapper's `null`. -/
def getUserById (remote : Except String (Option User)) (i : String)
    (s : StoreState) : StoreState × Option User :=
  match s.users.find? (fun u => u.id == some i) with
  | some u => (s, some u)
  | none =>
    let r := getUserByIdRemote remote s
    (r.1, r.2.join)

/-! ## CSV exporter (`src/lib/csvExport.ts`) -/

/-- `String.prototype.replace(/"/g, '""')`: each double quote expands to
two. -/
def escQuotes : List Char → List Char
  | [] => []
  | c :: cs => if c = '"' then '"' :: '"' :: escQuotes cs else c :: escQuotes cs

/-- `stringValue.includes(',') || stringValue.includes('"') || stringValue.includes('\n')`. -/
def needsQuoting (s : String) : Bool :=
  s.data.contains ',' || s.data.contains '"' || s.data.contains '\n'

/-- `escapeCsvValue`: `null`/`undefined` render as the empty string; a
value containing a comma, double quote, or newline is wrapped in double
quotes with internal quotes doubled; anything else is emitted bare. -/
def escapeCsvValue : Option String → String
  | none => ""
  | some s =>
    if needsQuoting s then "\"" ++ String.mk (escQuotes s.data) ++ "\"" else s

/-- `Array.prototype.join(sep)`. -/
def joinSep (sep : String) : List String → String
  | [] => ""
  | [s] => s
  | s :: rest => s ++ sep ++ joinSep sep rest

/-- Hinnant's `civil_from_days`: UTC calendar date (year, month, day)
from a day number relative to 1970-01-01; this is the calendar
computation underlying `Date.prototype.toISOString`. -/
def civilFromDays (z : Int) : Int × Int × Int :=
  let zz := z + 719468
  let era := zz.fdiv 146097
  let doe := zz - era * 146097
  let yoe := (doe - doe / 1460 + doe / 36524 - doe / 146096) / 365
  let y := yoe + era * 400
  let doy := doe - (365 * yoe + yoe / 4 - yoe / 100)
  let mp := (5 * doy + 2) / 153
  let d := doy - (153 * mp + 2) / 5 + 1
  let m := mp + (if mp < 10 then 3 else -9)
  (y + (if m ≤ 2 then 1 else 0), m, d)

/-- Zero-pad to two digits. -/
def pad2 (n : Int) : String :=
  if n < 10 then "0" ++ toString n else toString n

/-- Zero-pad to four digits (the ISO year field for years 0–9999). -/
def pad4 (n : Int) : String :=
  if n < 10 then "000" ++ toString n
  else if n < 100 then "00" ++ toString n
  else if n < 1000 then "0" ++ toString n
  else toString n

/-- Zero-pad to six digits (the expanded ISO year field). -/
def pad6 (n : Int) : String :=
  if n < 10 then "00000" ++ toString n
  else if n < 100 then "0000" ++ toString n
  else if n < 1000 then "000" ++ toString n
  else if n < 10000 then "00" ++ toString n
  else if n < 100000 then "0" ++ toString n
  else toString n

/-- The part of `toISOString()` before `'T'`: the UTC calendar date,
4-digit ISO form for years 0–9999 and expanded `±YYYYYY` form outside. -/
def isoDatePart (t : Int) : String :=
  let c := civilFromDays (t.fdiv 86400000)
  if 0 ≤ c.1 ∧ c.1 ≤ 9999 then
    pad4 c.1 ++ "-" ++ pad2 c.2.1 ++ "-" ++ pad2 c.2.2
  else if c.1 < 0 then
    "-" ++ pad6 (-c.1) ++ "-" ++ pad2 c.2.1 ++ "-" ++ pad2 c.2.2
  else
    "+" ++ pad6 c.1 ++ "-" ++ pad2 c.2.1 ++ "-" ++ pad2 c.2.2

/-- `formatDate` of `csvExport.ts`: `date.toISOString().split('T')[0]`,
with the `catch` turning the `RangeError` an Invalid Date raises into the
empty string. -/
def formatDate : JSDate → String
  | none => ""
  | some t => isoDatePart t

/-- `user.id || ''`. -/
def idStr (u : User) : String :=
  match u.id with
  | none => ""
  | some i => i

/-- The fixed header list of `usersToCSV`. -/
def headers : List String :=
  ["Name", "Email", "Date of Birth", "Gender", "Profile Picture",
   "Created At", "Updated At", "ID"]

/-- `headers.map(escapeCsvValue).join(',')`. -/
def headerRow : String :=
  joinSep "," (headers.map (fun h => escapeCsvValue (some h)))

/-- The eight cell values of one record's row, in column order. -/
def rowValues (u : User) : List String :=
  [u.name, u.email, formatDate u.dateOfBirth, genderStr u.gender,
   picStr u, formatDate u.createdAt, formatDate u.updatedAt, idStr u]

/-- One record's CSV row: escape each value, join with commas. -/
def rowString (u : User) : String :=
  joinSep "," ((rowValues u).map (fun v => escapeCsvValue (some v)))

/-- `usersToCSV`: header plus one row per record, newline-joined. -/
def usersToCSV (users : List User) : String :=
  joinSep "\n" (headerRow :: users.map rowString)

/-! ## Auxiliary definitions for the verification -/

/-- The predicate a single filter stage keeps, with an inactive stage
keeping everything. -/
def stagePred (tz : Int) (fc : FilterCriteria) : StageId → User → Bool
  | .gender, u => match fc.genderFilter with
    | none => true
    | some g => u.gender == g
  | .pic, u => match fc.profilePictureFilter with
    | .all => true
    | pf => if pf = .withPic then hasProfilePicture u else !hasProfilePicture u
  | .dob, u => match fc.dateOfBirthFilter with
    | none => true
    | some fd => sameLocalDay tz u.dateOfBirth fd
  | .created, u => match fc.createdAtFilter with
    | none => true
    | some fd => sameLocalDay tz u.createdAt fd
  | .updated, u => match fc.updatedAtFilter with
    | none => true
    | some fd => sameLocalDay tz u.updatedAt fd

/-- Criteria with only the date-of-birth filter active, set to
`'2000-01-01'`: a date-only ISO string parses as UTC midnight,
946684800000 ms. -/
def dobCritJan2000 : FilterCriteria :=
  ⟨none, .all, some (some 946684800000), none, none⟩

/-- Criteria with every filter at its "no filter" value. -/
def fcAllOff : FilterCriteria := ⟨none, .all, none, none, none⟩

/-- Criteria selecting only records without a profile picture. -/
def fcOnlyWithout : FilterCriteria := ⟨none, .withoutPic, none, none, none⟩

/-- Criteria selecting only records with a profile picture. -/
def fcOnlyWith : FilterCriteria := ⟨none, .withPic, none, none, none⟩

/-- A record born 2000-01-01T23:59:59Z. -/
def userBorn235959 : User :=
  ⟨some "u1", "Ann", "ann@x.com", some 946771199000, .female, none, some 0, some 0⟩

/-- A record born 2000-01-01T00:00:01Z. -/
def userBorn000001 : User :=
  ⟨some "u2", "Bob", "bob@x.com", some 946684801000, .male, none, some 0, some 0⟩

/-- A record born 2000-01-02T00:00:01Z. -/
def userBornJan2 : User :=
  ⟨some "u3", "Cal", "cal@x.com", some 946771201000, .male, none, some 0, some 0⟩

/-- A record with no profile picture. -/
def picUserNone : User :=
  ⟨some "p0", "Noa", "noa@x.com", some 0, .female, none, some 0, some 0⟩

/-- A record with a profile picture URL. -/
def picUserUrl : User :=
  ⟨some "p1", "Uri", "uri@x.com", some 0, .male, some "http://x", some 0, some 0⟩

/-- A record whose profile picture is a single space. -/
def picUserSpace : User :=
  ⟨some "p2", "Wes", "wes@x.com", some 0, .male, some " ", some 0, some 0⟩

/-- A record whose profile picture is the empty string. -/
def picUserEmpty : User :=
  ⟨some "p3", "Eve", "eve@x.com", some 0, .female, some "", some 0, some 0⟩

/-- A record whose dateOfBirth is an Invalid Date but whose other
timestamps are 2000-01-01T23:59:59Z. -/
def malformedDobUser : User :=
  ⟨some "id9", "Mal", "m@x", none, .female, none, some 946771199000, some 946771199000⟩

/-- An empty store state. -/
def stEmpty : StoreState := ⟨[], false, none⟩

/-- A store state holding `userBorn235959` and `userBorn000001`. -/
def stTwo : StoreState := ⟨[userBorn235959, userBorn000001], false, none⟩

/-- An operation that always fails, used to exercise the wrapper's
failure path. -/
def opBoom : List User → Except String (List User × List User) :=
  fun _ => .error "boom"

/-- `userBorn000001` with a changed name, as an update result. -/
def updatedBob : User :=
  ⟨some "u2", "Bobby", "bob@x.com", some 946684801000, .male, none, some 0, some 1⟩

/-- An update result whose id matches nothing in `stTwo`. -/
def updatedGhost : User :=
  ⟨some "zz", "Gho", "g@x.com", some 0, .male, none, some 0, some 1⟩

/-! ## Helper lemmas -/

theorem strCmp_le_iff (a b : String) : strCmp a b ≤ 0 ↔ a ≤ b := by
  unfold strCmp
  split_ifs with h1 h2
  · exact iff_of_true (by decide) h1.le
  · exact iff_of_false (by decide) (not_le.mpr h2)
  · exact iff_of_true (by decide) (not_lt.mp h2)

theorem perm_all_eq {α : Type} {l₁ l₂ : List α} (h : l₁.Perm l₂) (f : α → Bool) :
    l₁.all f = l₂.all f := by
  apply Bool.eq_iff_iff.mpr
  simp only [List.all_eq_true]
  exact ⟨fun H x hx => H x (h.mem_iff.mpr hx), fun H x hx => H x (h.mem_iff.mp hx)⟩

theorem takeWhile_ne_nl (a b : List Char) (h : a.all (fun c => c != '\n') = true) :
    (a ++ '\n' :: b).takeWhile (fun c => c != '\n') = a := by
  induction a with
  | nil => simp [List.takeWhile_cons]
  | cons c cs ih =>
    simp only [List.all_cons, Bool.and_eq_true] at h
    simp [List.takeWhile_cons, h.1, ih h.2]

theorem applyStage_eq_filter (tz : Int) (fc : FilterCriteria) (st : StageId)
    (l : List User) : applyStage tz fc st l = l.filter (stagePred tz fc st) := by
  cases st
  case gender =>
    cases h : fc.genderFilter
    · simp only [applyStage, h]
      exact (List.filter_eq_self.mpr (fun u _ => by simp [stagePred, h])).symm
    · simp only [applyStage, h]
      exact List.filter_congr (fun u _ => by simp [stagePred, h])
  case pic =>
    cases h : fc.profilePictureFilter
    · simp only [applyStage, h]
      exact List.filter_congr (fun u _ => by simp [stagePred, h])
    · simp only [applyStage, h]
      exact List.filter_congr (fun u _ => by simp [stagePred, h])
    · simp only [applyStage, h]
      exact (List.filter_eq_self.mpr (fun u _ => by simp [stagePred, h])).symm
  case dob =>
    cases h : fc.dateOfBirthFilter
    · simp only [applyStage, h]
      exact (List.filter_eq_self.mpr (fun u _ => by simp [stagePred, h])).symm
    · simp only [applyStage, h]
      exact List.filter_congr (fun u _ => by simp [stagePred, h])
  case created =>
    cases h : fc.createdAtFilter
    · simp only [applyStage, h]
      exact (List.filter_eq_self.mpr (fun u _ => by simp [stagePred, h])).symm
    · simp only [applyStage, h]
      exact List.filter_congr (fun u _ => by simp [stagePred, h])
  case updated =>
    cases h : fc.updatedAtFilter
    · simp only [applyStage, h]
      exact (List.filter_eq_self.mpr (fun u _ => by simp [stagePred, h])).symm
    · simp only [applyStage, h]
      exact List.filter_congr (fun u _ => by simp [stagePred, h])

theorem runStages_eq_filter (tz : Int) (fc : FilterCriteria) :
    ∀ (order : List StageId) (l : List User),
      runStages tz fc order l =
        l.filter (fun u => order.all (fun st => stagePred tz fc st u))
  | [], l => by simp [runStages]
  | st :: rest, l => by
    have step : runStages tz fc (st :: rest) l =
        runStages tz fc rest (applyStage tz fc st l) := rfl
    rw [step, runStages_eq_filter tz fc rest, applyStage_eq_filter,
      List.filter_filter]
    exact List.filter_congr fun x _ => by
      rw [List.all_cons, Bool.and_comm]

theorem ppCmp_le_asc_iff (x y : String) :
    ppCmp .asc x y ≤ 0 ↔ (x = "" → y = "") ∧ (x ≠ "" → y ≠ "" → x ≤ y) := by
  unfold ppCmp
  split_ifs with h1 h2 h3
  · exact iff_of_true (by simp) ⟨fun _ => h1.2, fun hx _ => absurd h1.1 hx⟩
  · exact iff_of_false (by decide)
      (fun hc => (fun hy => h1 ⟨h2, hy⟩) (hc.1 h2))
  · exact iff_of_true (by decide) ⟨fun hx => absurd hx h2, fun _ hy => absurd h3 hy⟩
  · rw [strCmp_le_iff]
    exact ⟨fun h => ⟨fun hx => absurd hx h2, fun _ _ => h⟩, fun h => h.2 h2 h3⟩

theorem ppCmp_le_desc_iff (x y : String) :
    ppCmp .desc x y ≤ 0 ↔ (y = "" → x = "") ∧ (x ≠ "" → y ≠ "" → y ≤ x) := by
  unfold ppCmp
  split_ifs with h1 h2 h3
  · exact iff_of_true (by simp) ⟨fun _ => h1.1, fun hx _ => absurd h1.1 hx⟩
  · exact iff_of_true (by decide)
      ⟨fun _ => h2, fun hx _ => absurd h2 hx⟩
  · exact iff_of_false (by decide)
      (fun hc => h2 (hc.1 h3))
  · rw [strCmp_le_iff]
    exact ⟨fun h => ⟨fun hy => absurd hy h3, fun _ _ => h⟩, fun h => h.2 h2 h3⟩

theorem jsLe_pp_iff (o : SortOrder) (a b : User) :
    jsSortLe (userCompare .profilePicture o) a b = true ↔
      ppCmp o (picStr a) (picStr b) ≤ 0 := by
  simp [jsSortLe, userCompare]

theorem jsLe_pp_trans (o : SortOrder) (a b c : User)
    (h1 : jsSortLe (userCompare .profilePicture o) a b = true)
    (h2 : jsSortLe (userCompare .profilePicture o) b c = true) :
    jsSortLe (userCompare .profilePicture o) a c = true := by
  rw [jsLe_pp_iff] at h1 h2 ⊢
  cases o
  · rw [ppCmp_le_asc_iff] at h1 h2 ⊢
    refine ⟨fun hx => h2.1 (h1.1 hx), fun hx hz => ?_⟩
    by_cases hy : picStr b = ""
    · exact absurd (h2.1 hy) hz
    · exact le_trans (h1.2 hx hy) (h2.2 hy hz)
  · rw [ppCmp_le_desc_iff] at h1 h2 ⊢
    refine ⟨fun hz => h1.1 (h2.1 hz), fun hx hz => ?_⟩
    by_cases hy : picStr b = ""
    · exact absurd (h1.1 hy) hx
    · exact le_trans (h2.2 hy hz) (h1.2 hx hy)

theorem jsLe_pp_total (o : SortOrder) (a b : User) :
    (jsSortLe (userCompare .profilePicture o) a b ||
     jsSortLe (userCompare .profilePicture o) b a) = true := by
  rw [Bool.or_eq_true, jsLe_pp_iff, jsLe_pp_iff]
  cases o
  · rw [ppCmp_le_asc_iff, ppCmp_le_asc_iff]
    by_cases hx : picStr a = ""
    · by_cases hy : picStr b = ""
      · exact Or.inl ⟨fun _ => hy, fun hxne _ => absurd hx hxne⟩
      · exact Or.inr ⟨fun h => absurd h hy, fun _ _ => absurd hx (fun _ => by simp_all)⟩
    · by_cases hy : picStr b = ""
      · exact Or.inl ⟨fun h => absurd h hx, fun _ hyne => absurd hy hyne⟩
      · rcases le_total (picStr a) (picStr b) with h | h
        · exact Or.inl ⟨fun h => absurd h hx, fun _ _ => h⟩
        · exact Or.inr ⟨fun h => absurd h hy, fun _ _ => h⟩
  · rw [ppCmp_le_desc_iff, ppCmp_le_desc_iff]
    by_cases hx : picStr a = ""
    · by_cases hy : picStr b = ""
      · exact Or.inl ⟨fun _ => hx, fun hxne _ => absurd hx hxne⟩
      · exact Or.inl ⟨fun h => absurd h hy, fun hxne _ => absurd hx hxne⟩
    · by_cases hy : picStr b = ""
      · exact Or.inr ⟨fun h => absurd h hx, fun hyne _ => absurd hy hyne⟩
      · rcases le_total (picStr a) (picStr b) with h | h
        · exact Or.inr ⟨fun h => absurd h hx, fun _ _ => h⟩
        · exact Or.inl ⟨fun h => absurd h hy, fun _ _ => h⟩

theorem escQuotes_flatMap (l : List Char) :
    escQuotes l = l.flatMap (fun c => if c = '"' then [c, c] else [c]) := by
  induction l with
  | nil => rfl
  | cons c cs ih => by_cases h : c = '"' <;> simp [escQuotes, h, ih]

/-! ## Claim theorems -/

/-- C4: a CSV cell is wrapped in double quotes with internal quotes
doubled exactly when its value contains a comma, a double quote, or a
newline; otherwise it is emitted bare; null/absent values render as the
empty string; and `O"Brien, Jr.` serializes as `"O""Brien, Jr."`. -/
theorem csv_escape_rule (s : String) :
    (needsQuoting s = true ↔ ',' ∈ s.data ∨ '"' ∈ s.data ∨ '\n' ∈ s.data) ∧
    (needsQuoting s = false → escapeCsvValue (some s) = s) ∧
    (needsQuoting s = true →
      (escapeCsvValue (some s)).data = '"' :: (escQuotes s.data ++ ['"'])) ∧
    escQuotes s.data = s.data.flatMap (fun c => if c = '"' then [c, c] else [c]) ∧
    escapeCsvValue none = "" ∧
    escapeCsvValue (some "O\"Brien, Jr.") = "\"O\"\"Brien, Jr.\"" := by
  refine ⟨?_, fun h => by simp [escapeCsvValue, h], fun h => by simp [escapeCsvValue, h],
    escQuotes_flatMap s.data, rfl, rfl⟩
  simp [needsQuoting, or_assoc]

/-- C4 witness: a value with no special character is emitted bare, and
one containing a comma is quoted with its quotes doubled. -/
theorem csv_escape_rule_witness :
    escapeCsvValue (some "ab") = "ab" ∧
    (escapeCsvValue (some "a,b")).data = '"' :: (escQuotes "a,b".data ++ ['"']) :=
  ⟨(csv_escape_rule "ab").2.1 rfl, (csv_escape_rule "a,b").2.2.1 rfl⟩

/-- C9: the CSV output's first line is always the fixed header
`Name,Email,Date of Birth,Gender,Profile Picture,Created At,Updated At,ID`,
and exporting the empty list yields exactly that single line and nothing
else. -/
theorem csv_header_fixed :
    usersToCSV [] =
      "Name,Email,Date of Birth,Gender,Profile Picture,Created At,Updated At,ID" ∧
    headerRow =
      "Name,Email,Date of Birth,Gender,Profile Picture,Created At,Updated At,ID" ∧
    ∀ users : List User,
      (usersToCSV users).data.takeWhile (fun c => c != '\n') = headerRow.data := by
  refine ⟨rfl, rfl, fun users => ?_⟩
  cases users with
  | nil => decide
  | cons u us =>
    have hdata : (usersToCSV (u :: us)).data =
        headerRow.data ++ '\n' :: (joinSep "\n" (rowString u :: us.map rowString)).data := rfl
    rw [hdata]
    exact takeWhile_ne_nl _ _ (by decide)

/-- C3: every collection-store operation run through
`withLoadingAndError` sets the busy flag at the start, clears the
previous error, ends with the busy flag off whatever the outcome, and on
failure returns the sentinel (`null`/`false`) with the error state
holding the thrown message, while on success the error state stays
`null`. -/
theorem wrapper_busy_error_contract (α : Type)
    (op : List User → Except String (α × List User)) (s : StoreState) :
    (wrapStart s).loading = true ∧
    (wrapStart s).error = none ∧
    (withLoadingAndError op s).1.loading = false ∧
    (∀ e, op (wrapStart s).users = .error e →
      (withLoadingAndError op s).2 = none ∧
      (withLoadingAndError op s).1.error = some e) ∧
    (∀ r us2, op (wrapStart s).users = .ok (r, us2) →
      (withLoadingAndError op s).2 = some r ∧
      (withLoadingAndError op s).1.error = none) ∧
    (∀ e, (fetchUsers (.error e) s).2 = false ∧
      (fetchUsers (.error e) s).1.error = some e ∧
      (fetchUsers (.error e) s).1.users = s.users) ∧
    (∀ e, (createUser (.error e) s).2 = none ∧
      (createUser (.error e) s).1.error = some e) ∧
    (∀ e, (updateUser (.error e) s).2 = none ∧
      (updateUser (.error e) s).1.error = some e) ∧
    (∀ e i, (deleteUser (.error e) i s).2 = false ∧
      (deleteUser (.error e) i s).1.error = some e) ∧
    (∀ e, (getUserByIdRemote (.error e) s).2 = none ∧
      (getUserByIdRemote (.error e) s).1.error = some e) := by
  refine ⟨rfl, rfl, ?_, ?_, ?_, fun e => ⟨rfl, rfl, rfl⟩, fun e => ⟨rfl, rfl⟩,
    fun e => ⟨rfl, rfl⟩, fun e i => ⟨rfl, rfl⟩, fun e => ⟨rfl, rfl⟩⟩
  · cases h : op (wrapStart s).users with
    | ok p => simp [withLoadingAndError, h]
    | error e => simp [withLoadingAndError, h]
  · intro e h
    constructor <;> simp [withLoadingAndError, h]
  · intro r us2 h
    constructor
    · simp [withLoadingAndError, h]
    · simp only [withLoadingAndError, h]
      rfl

/-- C3 witness: a failing operation on a concrete state leaves the busy
flag off, returns `null`, and records the message, and a failing
`fetchUsers` returns `false`. -/
theorem wrapper_busy_error_contract_witness :
    (withLoadingAndError opBoom stEmpty).2 = none ∧
    (withLoadingAndError opBoom stEmpty).1.error = some "boom" ∧
    (withLoadingAndError opBoom stEmpty).1.loading = false ∧
    (fetchUsers (.error "boom") stEmpty).2 = false :=
  ⟨((wrapper_busy_error_contract (List User) opBoom stEmpty).2.2.2.1 "boom" rfl).1,
   ((wrapper_busy_error_contract (List User) opBoom stEmpty).2.2.2.1 "boom" rfl).2,
   (wrapper_busy_error_contract (List User) opBoom stEmpty).2.2.1,
   ((wrapper_busy_error_contract (List User) opBoom stEmpty).2.2.2.2.2.1 "boom").1⟩

/-- C7: an `update` whose remote write succeeds but whose returned id
matches no in-memory record changes nothing (same length, same elements,
same positions, no crash); on a match the record is replaced in place,
all other positions untouched. -/
theorem update_by_id_frame (us : List User) (uu : User) (s : StoreState) :
    (us.findIdx? (fun u => u.id == uu.id) = none → updateLocal us uu = us) ∧
    (∀ i, us.findIdx? (fun u => u.id == uu.id) = some i →
      (updateLocal us uu).length = us.length ∧
      (updateLocal us uu)[i]? = some uu ∧
      ∀ j, j ≠ i → (updateLocal us uu)[j]? = us[j]?) ∧
    (updateUser (.ok uu) s).1.users = updateLocal s.users uu ∧
    (updateUser (.ok uu) s).2 = some uu ∧
    (updateUser (.ok uu) s).1.loading = false := by
  refine ⟨fun h => by simp [updateLocal, h], fun i h => ?_, rfl, rfl, rfl⟩
  have hlt : i < us.length := (List.findIdx?_eq_some_iff_findIdx_eq.mp h).1
  refine ⟨by simp [updateLocal, h], ?_, fun j hj => ?_⟩
  · simp [updateLocal, h, List.getElem?_set_self hlt]
  · simp [updateLocal, h, List.getElem?_set_ne (Ne.symm hj)]

/-- C7 witness: on `stTwo` an update result with an unmatched id leaves
the list unchanged, and one matching the second record replaces exactly
position 1. -/
theorem update_by_id_frame_witness :
    updateLocal [userBorn235959, userBorn000001] updatedGhost =
      [userBorn235959, userBorn000001] ∧
    (updateLocal [userBorn235959, userBorn000001] updatedBob)[1]? = some updatedBob ∧
    (updateLocal [userBorn235959, userBorn000001] updatedBob)[0]? =
      [userBorn235959, userBorn000001][0]? :=
  ⟨(update_by_id_frame [userBorn235959, userBorn000001] updatedGhost stEmpty).1 (by decide),
   ((update_by_id_frame [userBorn235959, userBorn000001] updatedBob stEmpty).2.1 1
     (by decide)).2.1,
   ((update_by_id_frame [userBorn235959, userBorn000001] updatedBob stEmpty).2.1 1
     (by decide)).2.2 0 (by decide)⟩

/-- C8: local deletion is an idempotent no-op filter: removing an id
twice equals removing it once, removing an absent id leaves the list
unchanged, and a second `deleteUser` call with the same id still
succeeds and leaves the list as it was after the first. -/
theorem delete_idempotent (us : List User) (i : String) (s : StoreState) :
    removeById (removeById us i) i = removeById us i ∧
    ((∀ u ∈ us, u.id ≠ some i) → removeById us i = us) ∧
    (deleteUser (.ok ()) i s).2 = true ∧
    (deleteUser (.ok ()) i ((deleteUser (.ok ()) i s).1)).2 = true ∧
    (deleteUser (.ok ()) i ((deleteUser (.ok ()) i s).1)).1.users =
      ((deleteUser (.ok ()) i s).1).users := by
  refine ⟨?_, ?_, rfl, rfl, ?_⟩
  · simp [removeById, List.filter_filter]
  · intro h
    exact List.filter_eq_self.mpr fun u hu => by simp [h u hu]
  · show removeById (removeById s.users i) i = removeById s.users i
    simp [removeById, List.filter_filter]

/-- C8 witness: deleting an id absent from a concrete list is a no-op,
and a repeated concrete delete still returns success. -/
theorem delete_idempotent_witness :
    removeById [userBorn235959] "zzz" = [userBorn235959] ∧
    (deleteUser (.ok ()) "u1" stTwo).2 = true ∧
    (deleteUser (.ok ()) "u1" ((deleteUser (.ok ()) "u1" stTwo).1)).2 = true :=
  ⟨(delete_idempotent [userBorn235959] "zzz" stEmpty).2.1 (by decide),
   (delete_idempotent stTwo.users "u1" stTwo).2.2.1,
   (delete_idempotent stTwo.users "u1" stTwo).2.2.2.1⟩

/-- C6: for a fixed collection and criteria, running the five filter
stages in any order yields the same result; the filtered view is a
sublist of the (untouched) input, and the full derived view built from
any stage order coincides with the pipeline's. -/
theorem filters_commute (tz : Int) (fc : FilterCriteria) (k : SortKey) (o : SortOrder)
    (order : List StageId) (hperm : order.Perm canonicalStages) (l : List User) :
    runStages tz fc order l = runStages tz fc canonicalStages l ∧
    (runStages tz fc canonicalStages l).Sublist l ∧
    useFilteredUsers tz fc k o l =
      (runStages tz fc order l).mergeSort (jsSortLe (userCompare k o)) := by
  have hmain : runStages tz fc order l = runStages tz fc canonicalStages l := by
    rw [runStages_eq_filter, runStages_eq_filter]
    exact List.filter_congr fun u _ => perm_all_eq hperm _
  refine ⟨hmain, ?_, by rw [useFilteredUsers, hmain]⟩
  rw [runStages_eq_filter]
  exact List.filter_sublist l

/-- C6 witness: the five stages applied in reverse order on a concrete
collection produce the canonical pipeline's result. -/
theorem filters_commute_witness :
    runStages 0 fcOnlyWith [.updated, .created, .dob, .pic, .gender]
        [picUserUrl, picUserNone] =
      runStages 0 fcOnlyWith canonicalStages [picUserUrl, picUserNone] ∧
    (runStages 0 fcOnlyWith canonicalStages [picUserUrl, picUserNone]).Sublist
      [picUserUrl, picUserNone] :=
  ⟨(filters_commute 0 fcOnlyWith .name .asc [.updated, .created, .dob, .pic, .gender]
      (by decide) [picUserUrl, picUserNone]).1,
   (filters_commute 0 fcOnlyWith .name .asc [.updated, .created, .dob, .pic, .gender]
      (by decide) [picUserUrl, picUserNone]).2.1⟩

/-- C1 (amended: in a runtime whose local timezone is UTC): with the
date-of-birth filter set to `2000-01-01`, the view includes every record
born 2000-01-01T23:59:59Z or 2000-01-01T00:00:01Z and excludes every
record born 2000-01-02T00:00:01Z — the comparison is by calendar day
only.  The code compares *local* calendar days of both the record's
timestamp and the UTC-midnight-parsed filter string, so this holds at
timezone offset 0. -/
theorem dob_filter_day_only_utc (users : List User) (k : SortKey) (o : SortOrder)
    (u : User) (hu : u ∈ users) :
    ((u.dateOfBirth = some 946771199000 ∨ u.dateOfBirth = some 946684801000) →
      u ∈ useFilteredUsers 0 dobCritJan2000 k o users) ∧
    (u.dateOfBirth = some 946771201000 →
      u ∉ useFilteredUsers 0 dobCritJan2000 k o users) := by
  have hmem : ∀ v : User, v ∈ useFilteredUsers 0 dobCritJan2000 k o users ↔
      v ∈ users ∧ sameLocalDay 0 v.dateOfBirth (some 946684800000) = true := by
    intro v
    rw [useFilteredUsers, List.mem_mergeSort, runStages_eq_filter, List.mem_filter]
    constructor
    · rintro ⟨h1, h2⟩
      refine ⟨h1, ?_⟩
      simpa [canonicalStages, stagePred, dobCritJan2000] using h2
    · rintro ⟨h1, h2⟩
      exact ⟨h1, by simp [canonicalStages, stagePred, dobCritJan2000, h2]⟩
  constructor
  · intro h
    rw [hmem]
    refine ⟨hu, ?_⟩
    rcases h with h | h <;> rw [h] <;> decide
  · intro h hin
    rw [hmem, h] at hin
    exact absurd hin.2 (by decide)

/-- C1 witness: on a concrete three-record collection, the two
2000-01-01 boundary records are in the filtered view and the
2000-01-02 one is not. -/
theorem dob_filter_day_only_utc_witness :
    userBorn235959 ∈ useFilteredUsers 0 dobCritJan2000 .name .asc
      [userBorn235959, userBorn000001, userBornJan2] ∧
    userBornJan2 ∉ useFilteredUsers 0 dobCritJan2000 .name .asc
      [userBorn235959, userBorn000001, userBornJan2] :=
  ⟨(dob_filter_day_only_utc [userBorn235959, userBorn000001, userBornJan2] .name .asc
      userBorn235959 (by decide)).1 (Or.inl rfl),
   (dob_filter_day_only_utc [userBorn235959, userBorn000001, userBornJan2] .name .asc
      userBornJan2 (by decide)).2 rfl⟩

/-- C1 counterexample: the claim as stated is timezone-dependent and
fails off UTC.  In a UTC+8 runtime (`tz = 28800000` ms) the record whose
stored dateOfBirth is 2000-01-01T23:59:59Z falls on local calendar day
2000-01-02 while the filter date `2000-01-01` (parsed as UTC midnight)
falls on local day 2000-01-01, so the record the claim requires to be
included is excluded: the result is empty. -/
theorem dob_filter_tz_counterexample :
    userBorn235959.dateOfBirth = some 946771199000 ∧
    useFilteredUsers 28800000 dobCritJan2000 .name .asc [userBorn235959] = [] := by
  refine ⟨rfl, ?_⟩
  simp [useFilteredUsers, runStages, canonicalStages, applyStage, dobCritJan2000,
    sameLocalDay, localDayKey, userBorn235959]

/-- C2: sorting by `profilePicture` places every missing/empty-picture
record after every present-picture record when ascending and before it
when descending (missing compares greater, then the direction applies),
and two present values are compared by locale string order; the sorted
view is a permutation of the filtered list. -/
theorem pp_sort_missing_placement (tz : Int) (fc : FilterCriteria) (users : List User) :
    (useFilteredUsers tz fc .profilePicture .asc users).Pairwise
      (fun a b => picStr a = "" → picStr b = "") ∧
    (useFilteredUsers tz fc .profilePicture .desc users).Pairwise
      (fun a b => picStr b = "" → picStr a = "") ∧
    (∀ a b : User, picStr a = "" → picStr b ≠ "" →
      userCompare .profilePicture .asc a b = 1 ∧
      userCompare .profilePicture .desc a b = -1 ∧
      userCompare .profilePicture .asc b a = -1 ∧
      userCompare .profilePicture .desc b a = 1) ∧
    (∀ a b : User, picStr a ≠ "" → picStr b ≠ "" →
      userCompare .profilePicture .asc a b = strCmp (picStr a) (picStr b) ∧
      userCompare .profilePicture .desc a b = strCmp (picStr b) (picStr a)) ∧
    (useFilteredUsers tz fc .profilePicture .asc users).Perm
      (runStages tz fc canonicalStages users) := by
  refine ⟨?_, ?_, ?_, ?_, List.mergeSort_perm _ _⟩
  · have hs := List.sorted_mergeSort (jsLe_pp_trans .asc) (jsLe_pp_total .asc)
      (runStages tz fc canonicalStages users)
    exact hs.imp fun {a b} h => fun hx =>
      ((ppCmp_le_asc_iff _ _).mp ((jsLe_pp_iff .asc a b).mp h)).1 hx
  · have hs := List.sorted_mergeSort (jsLe_pp_trans .desc) (jsLe_pp_total .desc)
      (runStages tz fc canonicalStages users)
    exact hs.imp fun {a b} h => fun hy =>
      ((ppCmp_le_desc_iff _ _).mp ((jsLe_pp_iff .desc a b).mp h)).1 hy
  · intro a b hx hy
    refine ⟨?_, ?_, ?_, ?_⟩ <;> simp [userCompare, ppCmp, hx, hy]
  · intro a b hx hy
    constructor <;> simp [userCompare, ppCmp, hx, hy]

/-- C2 witness: the comparator on a concrete missing-picture record and
a concrete present-picture record returns 1 and -1 exactly as the
placement rule requires. -/
theorem pp_sort_missing_placement_witness :
    userCompare .profilePicture .asc picUserNone picUserUrl = 1 ∧
    userCompare .profilePicture .desc picUserNone picUserUrl = -1 ∧
    userCompare .profilePicture .asc picUserUrl picUserNone = -1 ∧
    userCompare .profilePicture .desc picUserUrl picUserNone = 1 :=
  (pp_sort_missing_placement 0 fcAllOff []).2.2.1 picUserNone picUserUrl rfl (by decide)

/-- C5: every date cell of a row is the date's UTC calendar day in
`YYYY-MM-DD` form (for the ISO 4-digit year range), ignoring the time of
day; a malformed (invalid) date renders that cell as the empty string
while the export still produces a row for every record. -/
theorem csv_date_cells (users : List User) (u : User) (t1 t2 : Int) :
    formatDate none = "" ∧
    (u.dateOfBirth = none → (rowValues u)[2]? = some "") ∧
    (u.createdAt = none → (rowValues u)[5]? = some "") ∧
    (u.updatedAt = none → (rowValues u)[6]? = some "") ∧
    (users.map rowString).length = users.length ∧
    (t1.fdiv 86400000 = t2.fdiv 86400000 →
      formatDate (some t1) = formatDate (some t2)) ∧
    (∀ y m d : Int, civilFromDays (t1.fdiv 86400000) = (y, m, d) →
      0 ≤ y → y ≤ 9999 →
      formatDate (some t1) = pad4 y ++ "-" ++ pad2 m ++ "-" ++ pad2 d) ∧
    formatDate (some 946771199000) = "2000-01-01" ∧
    usersToCSV [malformedDobUser] =
      "Name,Email,Date of Birth,Gender,Profile Picture,Created At,Updated At,ID\nMal,m@x,,female,,2000-01-01,2000-01-01,id9" := by
  refine ⟨rfl, fun h => by simp [rowValues, h, formatDate],
    fun h => by simp [rowValues, h, formatDate],
    fun h => by simp [rowValues, h, formatDate],
    by simp, fun h => by simp [formatDate, isoDatePart, h], ?_, rfl, rfl⟩
  intro y m d hc h0 h9
  simp [formatDate, isoDatePart, hc, h0, h9]

/-- C5 witness: the malformed-date record's Date of Birth cell is empty,
two instants of the same UTC day format identically, and a concrete
in-range instant formats as its padded UTC calendar date. -/
theorem csv_date_cells_witness :
    (rowValues malformedDobUser)[2]? = some "" ∧
    formatDate (some 1000) = formatDate (some 86399999) ∧
    formatDate (some 946771199000) = pad4 2000 ++ "-" ++ pad2 1 ++ "-" ++ pad2 1 :=
  ⟨(csv_date_cells [] malformedDobUser 0 0).2.1 rfl,
   (csv_date_cells [] malformedDobUser 1000 86399999).2.2.2.2.2.1 (by decide),
   (csv_date_cells [] malformedDobUser 946771199000 0).2.2.2.2.2.2.1 2000 1 1
     (by decide) (by decide) (by decide)⟩

/-- C10: a record whose profilePicture is nonempty but all-whitespace is
classified as *not* having a picture by the presence filter (which
trims), yet as *present* by the profilePicture sort comparator (which
only tests emptiness): it sorts by locale string order against present
values and takes the present side of the missing-value rule. -/
theorem whitespace_pic_divergence (tz : Int) (s : String) (u v : User)
    (hu : u.profilePicture = some s) (hs : s ≠ "") (ht : jsTrim s = "") :
    hasProfilePicture u = false ∧
    applyStage tz fcOnlyWithout .pic [u] = [u] ∧
    applyStage tz fcOnlyWith .pic [u] = [] ∧
    ((v.profilePicture = none ∨ v.profilePicture = some "") →
      userCompare .profilePicture .asc u v = -1 ∧
      userCompare .profilePicture .desc u v = 1) ∧
    (∀ q, v.profilePicture = some q → q ≠ "" →
      userCompare .profilePicture .asc u v = strCmp s q) := by
  have hpic : hasProfilePicture u = false := by
    simp [hasProfilePicture, hu, hs, ht]
  have hstr : picStr u = s := by simp [picStr, hu]
  refine ⟨hpic, ?_, ?_, ?_, ?_⟩
  · simp [applyStage, fcOnlyWithout, hpic]
  · simp [applyStage, fcOnlyWith, hpic]
  · intro hv
    have hv' : picStr v = "" := by rcases hv with h | h <;> simp [picStr, h]
    constructor <;> simp [userCompare, ppCmp, hstr, hv', hs]
  · intro q hq hqne
    have hv' : picStr v = q := by simp [picStr, hq]
    simp [userCompare, ppCmp, hstr, hv', hs, hqne]

/-- C10 witness: the single-space picture record is kept by the
"without" filter, dropped by "with", yet the comparator puts it before
an empty-picture record and locale-compares it against a URL. -/
theorem whitespace_pic_divergence_witness :
    hasProfilePicture picUserSpace = false ∧
    applyStage 0 fcOnlyWithout .pic [picUserSpace] = [picUserSpace] ∧
    applyStage 0 fcOnlyWith .pic [picUserSpace] = [] ∧
    userCompare .profilePicture .asc picUserSpace picUserEmpty = -1 ∧
    userCompare .profilePicture .asc picUserSpace picUserUrl = strCmp " " "http://x" :=
  ⟨(whitespace_pic_divergence 0 " " picUserSpace picUserEmpty rfl (by decide) (by decide)).1,
   (whitespace_pic_divergence 0 " " picUserSpace picUserEmpty rfl (by decide) (by decide)).2.1,
   (whitespace_pic_divergence 0 " " picUserSpace picUserEmpty rfl (by decide) (by decide)).2.2.1,
   ((whitespace_pic_divergence 0 " " picUserSpace picUserEmpty rfl (by decide)
      (by decide)).2.2.2.1 (Or.inr rfl)).1,
   (whitespace_pic_divergence 0 " " picUserSpace picUserUrl rfl (by decide)
      (by decide)).2.2.2.2 "http://x" rfl (by decide)⟩

end G2G
